import Mathlib

/-!
Shallow embedding of the jrpc2go JSON-RPC 2.0 dispatcher (Go) and proofs
about its behaviour.

Modelling conventions:
* `json.RawMessage` payloads are opaque raw text, modelled as `String`.
* `interface\x7b\x7d` data attached to errors is either absent (Go `nil`) or a
  string (Go strings and Go `error` values, identified with their message).
* The two calls into `encoding/json`'s decoder made by `parseMethodRequest`
  are taken as parameters (`dSingle`, `dArr`): the decoder is an external
  library, so theorems quantify over its behaviour and concrete instances
  record the documented behaviour of `encoding/json` at specific inputs.
* A handler (`Method.Execute(req, resp)`) populates the response's result
  and error fields; its execution is modelled as the sequence of atomic
  field writes it performs on the shared `Response`.
* The `select` race in `execMethod` between the timeout context and the
  completion channel is modelled by an explicit outcome: either the handler
  signalled completion first, or the deadline fired after the handler had
  performed some number `k` of its writes.
-/

namespace Jrpc2go

/-- Costant `version` from jrpc2go.go: the supported JSON RPC version. -/
def version : String := "2.0"

/-- Error codes (Go `ErrorCode` constants from errors.go). -/
def errCodeParseError : Int := -32700

def errCodeInvalidRequest : Int := -32600

def errCodeMethodNotFound : Int := -32601

def errCodeInvalidParams : Int := -32602

def errCodeInternal : Int := -32603

def errCodeInvalidRPCVersion : Int := -32001

def errCodeExecutionTimeout : Int := -32002

/-- Data attached to an error (Go `interface\x7b\x7d`): absent (`nil`) or a
string (Go string values and `error` values identified with their message). -/
inductive EData where
  | null : EData
  | str (s : String) : EData
deriving DecidableEq, Repr

/-- Go struct `Error` from errors.go. -/
structure Error where
  code : Int
  message : String
  data : EData
deriving DecidableEq, Repr

/-- Go `newError` from errors.go: fills the canonical message for known codes
(the `switch` leaves the message empty for unknown codes). -/
def newError (code : Int) (data : EData) : Error :=
  { code := code
    message :=
      if code = errCodeParseError then "Parse error"
      else if code = errCodeInvalidRequest then "Invalid Request"
      else if code = errCodeMethodNotFound then "Method not found"
      else if code = errCodeInvalidParams then "Invalid method parameter(s)"
      else if code = errCodeInternal then "Internal error"
      else if code = errCodeInvalidRPCVersion then "JSON RPC Version must be 2.0"
      else if code = errCodeExecutionTimeout then "Method execution timeout"
      else ""
    data := data }

/-- Go `NewError` from errors.go: an error with a caller-supplied code and
message and no data. -/
def NewError (code : Int) (message : String) : Error :=
  { code := code, message := message, data := EData.null }

/-- Go struct `Request` from jrpc2go.go. `ID` and `Params` are optional raw
JSON payloads; the context field is not part of the wire form and is
subsumed by the explicit race outcome below. -/
structure Request where
  versionF : String
  method : String
  id : Option String := none
  params : Option String := none
deriving DecidableEq, Repr

/-- Go struct `Response` from jrpc2go.go. `Result` is `interface\x7b\x7d` with
`omitempty`: `none` means the field is absent from the wire form. -/
structure Response where
  versionF : String
  id : Option String
  result : Option String := none
  error : Option Error := none
deriving DecidableEq, Repr

/-- Go `newResponse` from jrpc2go.go: copies version and identifier from the
originating request (note: the request's version, not the literal "2.0"). -/
def newResponse (r : Request) : Response :=
  { versionF := r.versionF, id := r.id }

/-- One atomic field write a handler performs on the shared `Response`
(per the handler contract, handlers populate result or error). -/
inductive HStep where
  | setResult (v : Option String) : HStep
  | setError (e : Option Error) : HStep

/-- Go interface `Method`: `Execute(req, resp)` is modelled as the sequence
of atomic writes the handler performs on the response for a given request. -/
def Method : Type := Request → List HStep

/-- Apply one handler write to a response. -/
def applyStep (res : Response) : HStep → Response
  | .setResult v => { res with result := v }
  | .setError e => { res with error := e }

/-- Apply a sequence of handler writes in order. -/
def applySteps (res : Response) (steps : List HStep) : Response :=
  steps.foldl applyStep res

/-- Outcome of the `select` race in `execMethod` between the timeout context
and the completion channel: either the handler signalled completion first,
or the deadline fired when the handler had performed its first `k` writes. -/
inductive Race where
  | finished : Race
  | timedOut (k : Nat) : Race

/-- Go struct `ManagerBuilder`. The method map is a function from names to
optionally-registered handlers; the timeout duration is an opaque number. -/
structure ManagerBuilder where
  timeout : Nat
  methods : String → Option Method

/-- Go `NewManagerBuilder`: default timeout of 10 seconds, empty method map. -/
def NewManagerBuilder : ManagerBuilder :=
  { timeout := 10, methods := fun _ => none }

/-- Go `ManagerBuilder.SetTimeout`. -/
def ManagerBuilder.SetTimeout (mb : ManagerBuilder) (t : Nat) : ManagerBuilder :=
  { mb with timeout := t }

/-- Go `ManagerBuilder.Add`: panics (modelled as `Except.error` carrying the
panic message) when the name is empty or the handler is nil; otherwise
stores the handler under the name, overwriting any earlier registration. -/
def ManagerBuilder.Add (mb : ManagerBuilder) (name : String) (h : Option Method) :
    Except String ManagerBuilder :=
  if name = "" ∨ h.isNone then
    .error "jsonrpc: method name and function should not be empty"
  else
    .ok { mb with methods := fun n => if n = name then h else mb.methods n }

/-- Go struct `Manager` (the mutex guards only map reads and has no
observable effect on the read-only map). -/
structure Manager where
  methods : String → Option Method
  timeout : Nat

/-- Go `ManagerBuilder.Build`. -/
def ManagerBuilder.Build (mb : ManagerBuilder) : Manager :=
  { methods := mb.methods, timeout := mb.timeout }

/-- Go `Manager.execMethod`: version check, then method-name check, then
registry lookup, then the timed execution race. In the completion branch a
handler-set error clears the result; in the timeout branch the
ExecutionTimeout error is set over whatever state the handler's first `k`
writes left behind (the Go code does not clear the result there). -/
def Manager.execMethod (m : Manager) (req : Request) (race : Race) : Response :=
  let res := newResponse req
  if req.versionF ≠ version then
    { res with error := some (newError errCodeInvalidRPCVersion (.str res.versionF)) }
  else if req.method = "" then
    { res with error := some (newError errCodeMethodNotFound (.str "Method not specified or empty")) }
  else
    match m.methods req.method with
    | none => { res with error := some (newError errCodeMethodNotFound (.str req.method)) }
    | some meth =>
      match race with
      | .timedOut k =>
        let r1 := applySteps res ((meth req).take k)
        { r1 with error := some (newError errCodeExecutionTimeout .null) }
      | .finished =>
        let r1 := applySteps res (meth req)
        if r1.error.isSome then { r1 with result := none } else r1

/-- Shape of what `Handle` writes to the sink: nothing, a single JSON
object, or a JSON array of responses in order. -/
inductive Output where
  | noBytes : Output
  | singleOut (r : Response) : Output
  | arrayOut (rs : List Response) : Output
deriving Repr, DecidableEq

/-- Collection loop of `Manager.Handle`: dispatch each request (paired with
the outcome of its own execution race) and retain the response when the
request carried an identifier or the response carries an error. -/
def handleLoop (m : Manager) : List (Request × Race) → List Response
  | [] => []
  | (r, ra) :: rest =>
    let t := m.execMethod r ra
    if r.id.isSome || t.error.isSome then t :: handleLoop m rest
    else handleLoop m rest

/-- Pair each request of a batch with the race outcome of its own call. -/
def withSched (sched : Nat → Race) : List Request → Nat → List (Request × Race)
  | [], _ => []
  | r :: rest, i => (r, sched i) :: withSched sched rest (i + 1)

/-- Post-parse part of `Manager.Handle`: empty-batch check, collection loop,
then the encode branch (Go tests `len(resp) > 1` for the array form, then
`len(resp) == 1` for the single-object form, and otherwise writes nothing;
the three match arms below are exactly those three cases). -/
def handleRequests (m : Manager) (rq : List Request) (sched : Nat → Race) :
    Except Error Output :=
  if rq.length = 0 then
    .error (newError errCodeInvalidRequest (.str "no methods specified"))
  else
    match handleLoop m (withSched sched rq 0) with
    | [] => .ok .noBytes
    | [r] => .ok (.singleOut r)
    | rs => .ok (.arrayOut rs)

/-- Go `parseMethodRequest` from jrpc2go.go, parameterised by the two
`encoding/json` decoder calls it makes. An empty stream makes `ReadRune`
fail with EOF (the `br.Size() == 0` guard never fires in Go: `Size` is the
buffer capacity); otherwise the first rune is read and unread, and its
comparison with the array-open marker selects single or array decoding.
Decode failures become InvalidRequest errors carrying the decode error. -/
def parseMethodRequest (dSingle : String → Except String Request)
    (dArr : String → Except String (List Request)) (input : String) :
    Except Error (List Request) :=
  match input.data with
  | [] => .error (newError errCodeParseError (.str "fail to read the request text: EOF"))
  | f :: _ =>
    if f ≠ '[' then
      match dSingle input with
      | .error e => .error (newError errCodeInvalidRequest (.str e))
      | .ok req => .ok [req]
    else
      match dArr input with
      | .error e => .error (newError errCodeInvalidRequest (.str e))
      | .ok rs => .ok rs

/-- Go `Manager.Handle` after the nil reader/writer guards: parse, then
dispatch and encode. A returned error writes nothing to the sink. -/
def Manager.Handle (m : Manager) (dSingle : String → Except String Request)
    (dArr : String → Except String (List Request)) (input : String)
    (sched : Nat → Race) : Except Error Output :=
  match parseMethodRequest dSingle dArr input with
  | .error e => .error e
  | .ok rq => handleRequests m rq sched

/-- Go `Request.ParseParams`, parameterised by the `json.Unmarshal` call it
makes. The target `v` is `none` when the Go caller passes nil; the returned
pair is (the error, the final contents of the target). -/
def Request.ParseParams {α : Type} (r : Request) (unmarshal : String → Except String α)
    (v : Option α) : Option Error × Option α :=
  match v with
  | none =>
    (some (newError errCodeInvalidParams (.str "v can't be nil to parse request parameters")), none)
  | some _ =>
    match r.params with
    | none => (some (newError errCodeInvalidParams (.str "request doesn't have params")), v)
    | some p =>
      match unmarshal p with
      | .error e => (some (newError errCodeInvalidParams (.str e)), v)
      | .ok a => (none, some a)

/-- First significant (non-whitespace, in the JSON sense) character of a
stream; used only to state the decoder claim in the spec's words. -/
def firstSignificantChar (s : String) : Option Char :=
  (s.data.dropWhile fun c => c = ' ' ∨ c = '\t' ∨ c = '\n' ∨ c = '\r').head?

/-- Test for a handler write that stores an actual (non-nil) result value. -/
def writesResult : HStep → Bool
  | .setResult (some _) => true
  | _ => false

/-!  Helper lemmas about handler write sequences. -/

theorem applySteps_nil (res : Response) : applySteps res [] = res := rfl

theorem applySteps_cons (res : Response) (s : HStep) (rest : List HStep) :
    applySteps res (s :: rest) = applySteps (applyStep res s) rest := rfl

theorem applyStep_versionF (res : Response) (s : HStep) :
    (applyStep res s).versionF = res.versionF := by
  cases s <;> rfl

theorem applyStep_id (res : Response) (s : HStep) :
    (applyStep res s).id = res.id := by
  cases s <;> rfl

theorem applySteps_versionF (steps : List HStep) (res : Response) :
    (applySteps res steps).versionF = res.versionF := by
  induction steps generalizing res with
  | nil => rfl
  | cons s rest ih => rw [applySteps_cons, ih, applyStep_versionF]

theorem applySteps_id (steps : List HStep) (res : Response) :
    (applySteps res steps).id = res.id := by
  induction steps generalizing res with
  | nil => rfl
  | cons s rest ih => rw [applySteps_cons, ih, applyStep_id]

theorem applySteps_result_none (steps : List HStep) (res : Response)
    (h0 : res.result = none) (h : ∀ s ∈ steps, writesResult s = false) :
    (applySteps res steps).result = none := by
  induction steps generalizing res with
  | nil => exact h0
  | cons s rest ih =>
    rw [applySteps_cons]
    refine ih (applyStep res s) ?_ fun t ht => h t (List.mem_cons_of_mem s ht)
    have hs := h s (List.mem_cons_self s rest)
    cases s with
    | setResult v =>
      cases v with
      | none => rfl
      | some w => simp [writesResult] at hs
    | setError e => simpa [applyStep] using h0

theorem execMethod_versionF_eq (m : Manager) (req : Request) (race : Race) :
    (m.execMethod req race).versionF = req.versionF := by
  unfold Manager.execMethod
  dsimp only
  repeat' split
  all_goals simp [applySteps_versionF, newResponse]

theorem execMethod_id_eq (m : Manager) (req : Request) (race : Race) :
    (m.execMethod req race).id = req.id := by
  unfold Manager.execMethod
  dsimp only
  repeat' split
  all_goals simp [applySteps_id, newResponse]

/-- Each per-call response preserves the originating request's version and
identifier fields (handlers write only result/error). -/
theorem execMethod_preserves_versionF_id (m : Manager) (req : Request) (race : Race) :
    (m.execMethod req race).versionF = req.versionF ∧
      (m.execMethod req race).id = req.id :=
  ⟨execMethod_versionF_eq m req race, execMethod_id_eq m req race⟩

/-- Claim C7 (confirmed): a request whose protocol version differs from
"2.0" terminates per-call dispatch at once with an InvalidRPCVersion error
(code -32001, data = the mismatched version string), with no result; and
the outcome is independent of the registry contents and of the execution
race, so no method lookup and no handler can influence it — even when the
named method does not exist. -/
theorem execMethod_invalid_version (m m' : Manager) (req : Request) (race race' : Race)
    (h : req.versionF ≠ version) :
    m.execMethod req race =
      { versionF := req.versionF, id := req.id, result := none,
        error := some (newError errCodeInvalidRPCVersion (EData.str req.versionF)) } ∧
      m.execMethod req race = m'.execMethod req race' := by
  constructor <;> simp [Manager.execMethod, h, newResponse]

/-- Witness for C7 at a concrete input: a version "1.0" request against an
empty registry, and independence from a second registry and schedule. -/
theorem execMethod_invalid_version_witness :
    ({ methods := fun _ => none, timeout := 10 } : Manager).execMethod
        { versionF := "1.0", method := "nope", id := some "7" } Race.finished =
      { versionF := "1.0", id := some "7", result := none,
        error := some (newError errCodeInvalidRPCVersion (EData.str "1.0")) } :=
  (execMethod_invalid_version
    { methods := fun _ => none, timeout := 10 }
    { methods := fun _ => none, timeout := 10 }
    { versionF := "1.0", method := "nope", id := some "7" }
    Race.finished Race.finished (by decide)).1

/-- Claim C1 (counterexample): with a handler that stores a result value and
a deadline that fires after that write, the per-call response carries BOTH a
non-null result and a non-null error, and it is retained and handed to the
encoder as the single output object — refuting the claimed invariant that a
transmitted Response never carries both. -/
theorem execMethod_timeout_both_result_and_error :
    (({ methods := fun n => if n = "m" then some (fun _ => [HStep.setResult (some "5")]) else none,
        timeout := 10 } : Manager).execMethod
        { versionF := "2.0", method := "m", id := some "1" } (Race.timedOut 1)) =
      { versionF := "2.0", id := some "1", result := some "5",
        error := some (newError errCodeExecutionTimeout EData.null) } ∧
    handleRequests
        { methods := fun n => if n = "m" then some (fun _ => [HStep.setResult (some "5")]) else none,
          timeout := 10 }
        [{ versionF := "2.0", method := "m", id := some "1" }] (fun _ => Race.timedOut 1) =
      .ok (.singleOut
        { versionF := "2.0", id := some "1", result := some "5",
          error := some (newError errCodeExecutionTimeout EData.null) }) :=
  ⟨by decide, by rfl⟩

/-- Claim C1 (amended): when the handler signals completion before the
deadline fires, a per-call response never carries both a result and a
non-null error — an error present at completion clears any result value
before the response is returned for encoding. (On timeout the code sets the
ExecutionTimeout error without clearing a result the handler had already
stored, so a timed-out response can carry both.) -/
theorem execMethod_finished_error_clears_result (m : Manager) (req : Request)
    (h : (m.execMethod req Race.finished).error.isSome = true) :
    (m.execMethod req Race.finished).result = none := by
  by_cases hv : req.versionF = version
  · by_cases hm : req.method = ""
    · simp [Manager.execMethod, hv, hm, newResponse]
    · rcases hl : m.methods req.method with _ | meth
      · simp [Manager.execMethod, hv, hm, hl, newResponse]
      · simp [Manager.execMethod, hv, hm, hl] at h ⊢
        by_cases he : (applySteps (newResponse req) (meth req)).error.isSome = true
        · simp [he]
        · simp [he] at h ⊢
  · simp [Manager.execMethod, hv, newResponse]

/-- Witness for the amended C1 at a concrete input: the repository test
handler that sets an error and then a result; on completion the result is
cleared. -/
theorem execMethod_finished_error_clears_result_witness :
    (({ methods := fun n =>
          if n = "sum" then
            some fun _ =>
              [HStep.setError (some (NewError 1 "Fake error for test")),
               HStep.setResult (some "1")]
          else none,
        timeout := 1 } : Manager).execMethod
        { versionF := "2.0", method := "sum", id := some "1" } Race.finished).result = none :=
  execMethod_finished_error_clears_result _ _ (by decide)

/-- Claim C2 (counterexample): a handler stored the result "7" before the
deadline fired; the timed-out response has the ExecutionTimeout error but
its result field is PRESENT (some "7"), refuting the claim that the result
is absent even if the handler has already set one. -/
theorem execMethod_timeout_keeps_result_counterexample :
    (({ methods := fun n => if n = "add" then some (fun _ => [HStep.setResult (some "7")]) else none,
        timeout := 1 } : Manager).execMethod
        { versionF := "2.0", method := "add", id := some "2" } (Race.timedOut 1)) =
      { versionF := "2.0", id := some "2", result := some "7",
        error := some (newError errCodeExecutionTimeout EData.null) } ∧
    (({ methods := fun n => if n = "add" then some (fun _ => [HStep.setResult (some "7")]) else none,
        timeout := 1 } : Manager).execMethod
        { versionF := "2.0", method := "add", id := some "2" } (Race.timedOut 1)).result ≠
      none :=
  ⟨by decide, by decide⟩

/-- Claim C2 (amended): when the deadline fires after the handler performed
its first k writes, the response is exactly the state those k writes left,
with the ExecutionTimeout error (code -32002, data null) set over it; the
result field is therefore absent precisely when none of those k writes
stored a result value — a result already stored before the deadline is
retained, not cleared. -/
theorem execMethod_timeout_shape (m : Manager) (req : Request) (meth : Method) (k : Nat)
    (hv : req.versionF = version) (hm : req.method ≠ "")
    (hl : m.methods req.method = some meth) :
    m.execMethod req (Race.timedOut k) =
      { applySteps (newResponse req) ((meth req).take k) with
        error := some (newError errCodeExecutionTimeout EData.null) } ∧
      ((∀ s ∈ (meth req).take k, writesResult s = false) →
        (m.execMethod req (Race.timedOut k)).result = none) := by
  have h1 : m.execMethod req (Race.timedOut k) =
      { applySteps (newResponse req) ((meth req).take k) with
        error := some (newError errCodeExecutionTimeout EData.null) } := by
    simp [Manager.execMethod, hv, hm, hl]
  refine ⟨h1, fun hw => ?_⟩
  rw [h1]
  exact applySteps_result_none _ _ (by simp [newResponse]) hw

/-- Witness for the amended C2 at a concrete input: a handler whose single
write before the deadline set an error (no result write), timed out after
that write; the response's result is absent. -/
theorem execMethod_timeout_shape_witness :
    (({ methods := fun n =>
          if n = "add" then some fun _ => [HStep.setError (some (NewError 1 "x"))] else none,
        timeout := 1 } : Manager).execMethod
        { versionF := "2.0", method := "add", id := some "2" } (Race.timedOut 1)).result =
      none :=
  (execMethod_timeout_shape _ _ _ 1 rfl (by decide) rfl).2 (by decide)

/-- Claim C3 (counterexample): a single request with version "1.0" and an
identifier is answered — and the response is written to the sink as the
single output object — with version field "1.0", not "2.0", refuting the
claim that every transmitted response has version exactly "2.0". -/
theorem handle_version_not_always_two :
    handleRequests { methods := fun _ => none, timeout := 10 }
        [{ versionF := "1.0", method := "x", id := some "9" }] (fun _ => Race.finished) =
      .ok (.singleOut
        { versionF := "1.0", id := some "9", result := none,
          error := some (newError errCodeInvalidRPCVersion (EData.str "1.0")) }) ∧
      ({ versionF := "1.0", id := some "9", result := none,
         error := some (newError errCodeInvalidRPCVersion (EData.str "1.0")) } :
          Response).versionF ≠ "2.0" :=
  ⟨by rfl, by decide⟩

/-- Claim C3 (amended): every response collected by the Handle loop carries
the version string and the identifier of its originating request (the code
echoes the request's version rather than the literal "2.0"); in particular,
for every valid request — one whose version is "2.0" — the response's
version is exactly "2.0" and its identifier equals the request's. -/
theorem handle_echoes_request_version_and_id :
    (∀ (m : Manager) (prs : List (Request × Race)) (r : Response), r ∈ handleLoop m prs →
      ∃ p ∈ prs, r.versionF = p.1.versionF ∧ r.id = p.1.id) ∧
      (∀ (m : Manager) (req : Request) (race : Race), req.versionF = version →
        (m.execMethod req race).versionF = "2.0" ∧ (m.execMethod req race).id = req.id) := by
  constructor
  · intro m prs r hr
    induction prs with
    | nil => simp [handleLoop] at hr
    | cons p rest ih =>
      obtain ⟨req, ra⟩ := p
      simp only [handleLoop] at hr
      split at hr
      · rcases List.mem_cons.mp hr with h1 | h2
        · refine ⟨(req, ra), List.mem_cons_self _ _, ?_⟩
          rw [h1]
          exact ⟨execMethod_versionF_eq m req ra, execMethod_id_eq m req ra⟩
        · obtain ⟨q, hq, hprop⟩ := ih h2
          exact ⟨q, List.mem_cons_of_mem _ hq, hprop⟩
      · obtain ⟨q, hq, hprop⟩ := ih hr
        exact ⟨q, List.mem_cons_of_mem _ hq, hprop⟩
  · intro m req race h
    refine ⟨?_, execMethod_id_eq m req race⟩
    rw [execMethod_versionF_eq m req race, h]
    rfl

/-- Witness for the amended C3 at a concrete input: the method-not-found
response to a valid identified request carries the request's version and
identifier. -/
theorem handle_echoes_request_version_and_id_witness :
    ∃ p ∈ [(({ versionF := "2.0", method := "x", id := some "3" } : Request), Race.finished)],
      ({ versionF := "2.0", id := some "3", result := none,
         error := some (newError errCodeMethodNotFound (EData.str "x")) } :
          Response).versionF = p.1.versionF ∧
        ({ versionF := "2.0", id := some "3", result := none,
           error := some (newError errCodeMethodNotFound (EData.str "x")) } :
            Response).id = p.1.id :=
  handle_echoes_request_version_and_id.1 { methods := fun _ => none, timeout := 10 }
    [({ versionF := "2.0", method := "x", id := some "3" }, Race.finished)]
    { versionF := "2.0", id := some "3", result := none,
      error := some (newError errCodeMethodNotFound (EData.str "x")) } (by decide)

/-- Claim C5 (confirmed): the Handle loop retains a per-call response for
output exactly when the originating request carried an identifier or the
response carries a non-null error — the output is the in-order image of
exactly the retained calls; consequently a notification whose call produced
no error contributes nothing, and a notification whose call produced an
error still contributes that error response. -/
theorem handleLoop_retention_iff :
    (∀ (m : Manager) (prs : List (Request × Race)),
      handleLoop m prs =
        (prs.filter fun p => p.1.id.isSome || (m.execMethod p.1 p.2).error.isSome).map
          fun p => m.execMethod p.1 p.2) ∧
      (∀ (m : Manager) (req : Request) (race : Race), req.id = none →
        ((m.execMethod req race).error = none → handleLoop m [(req, race)] = []) ∧
          (∀ e, (m.execMethod req race).error = some e →
            handleLoop m [(req, race)] = [m.execMethod req race])) := by
  have key : ∀ (m : Manager) (prs : List (Request × Race)),
      handleLoop m prs =
        (prs.filter fun p => p.1.id.isSome || (m.execMethod p.1 p.2).error.isSome).map
          fun p => m.execMethod p.1 p.2 := by
    intro m prs
    induction prs with
    | nil => rfl
    | cons p rest ih =>
      obtain ⟨req, ra⟩ := p
      by_cases hc : (req.id.isSome || (m.execMethod req ra).error.isSome) = true
      · simp [handleLoop, hc, List.filter_cons, ih]
      · simp [handleLoop, hc, List.filter_cons, ih]
  refine ⟨key, fun m req race hid => ⟨fun herr => ?_, fun e herr => ?_⟩⟩
  · rw [key]
    simp [hid, herr]
  · rw [key]
    simp [hid, herr]

/-- Witness for C5 at concrete inputs: a successful notification produces no
retained response, and a notification hitting an unknown method still
produces its error response. -/
theorem handleLoop_retention_iff_witness :
    handleLoop
        { methods := fun n => if n = "m" then some (fun _ => [HStep.setResult (some "1")]) else none,
          timeout := 10 }
        [({ versionF := "2.0", method := "m", id := none }, Race.finished)] = [] ∧
      handleLoop { methods := fun _ => none, timeout := 10 }
          [({ versionF := "2.0", method := "nope", id := none }, Race.finished)] =
        [{ versionF := "2.0", id := none, result := none,
           error := some (newError errCodeMethodNotFound (EData.str "nope")) }] :=
  ⟨(handleLoop_retention_iff.2
      { methods := fun n => if n = "m" then some (fun _ => [HStep.setResult (some "1")]) else none,
        timeout := 10 }
      { versionF := "2.0", method := "m", id := none } Race.finished rfl).1 (by decide),
    (handleLoop_retention_iff.2 { methods := fun _ => none, timeout := 10 }
      { versionF := "2.0", method := "nope", id := none } Race.finished rfl).2
      (newError errCodeMethodNotFound (EData.str "nope")) (by decide)⟩

/-- Claim C6 (confirmed): for a non-empty decoded batch, zero retained
responses make Handle write nothing to the sink and succeed; exactly one
retained response is encoded as a single JSON object (not a one-element
array); two or more retained responses are encoded as a JSON array of the
retained responses, in their original order. -/
theorem handleRequests_encoding (m : Manager) (rq : List Request) (sched : Nat → Race)
    (hne : rq ≠ []) :
    (handleLoop m (withSched sched rq 0) = [] → handleRequests m rq sched = .ok .noBytes) ∧
      (∀ r, handleLoop m (withSched sched rq 0) = [r] →
        handleRequests m rq sched = .ok (.singleOut r)) ∧
      (2 ≤ (handleLoop m (withSched sched rq 0)).length →
        handleRequests m rq sched = .ok (.arrayOut (handleLoop m (withSched sched rq 0)))) := by
  have hlen : ¬rq.length = 0 := by simpa [List.length_eq_zero] using hne
  refine ⟨fun h0 => ?_, fun r h1 => ?_, fun h2 => ?_⟩
  · simp [handleRequests, hlen, h0]
  · simp [handleRequests, hlen, h1]
  · rcases hL : handleLoop m (withSched sched rq 0) with _ | ⟨a, _ | ⟨b, tl⟩⟩
    · rw [hL] at h2; simp at h2
    · rw [hL] at h2; simp at h2
    · simp [handleRequests, hlen, hL]

/-- Witness for C6 at concrete inputs: a successful notification batch
writes nothing; one identified call encodes as a single object; two
identified calls encode as a two-element array in order. -/
theorem handleRequests_encoding_witness :
    handleRequests
        { methods := fun n => if n = "m" then some (fun _ => [HStep.setResult (some "1")]) else none,
          timeout := 10 }
        [{ versionF := "2.0", method := "m", id := none }] (fun _ => Race.finished) =
      .ok .noBytes ∧
      handleRequests
          { methods := fun n => if n = "m" then some (fun _ => [HStep.setResult (some "1")]) else none,
            timeout := 10 }
          [{ versionF := "2.0", method := "m", id := some "1" }] (fun _ => Race.finished) =
        .ok (.singleOut { versionF := "2.0", id := some "1", result := some "1", error := none }) ∧
      handleRequests
          { methods := fun n => if n = "m" then some (fun _ => [HStep.setResult (some "1")]) else none,
            timeout := 10 }
          [{ versionF := "2.0", method := "m", id := some "1" },
           { versionF := "2.0", method := "m", id := some "2" }] (fun _ => Race.finished) =
        .ok (.arrayOut
          [{ versionF := "2.0", id := some "1", result := some "1", error := none },
           { versionF := "2.0", id := some "2", result := some "1", error := none }]) :=
  ⟨(handleRequests_encoding
      { methods := fun n => if n = "m" then some (fun _ => [HStep.setResult (some "1")]) else none,
        timeout := 10 }
      [{ versionF := "2.0", method := "m", id := none }] (fun _ => Race.finished)
      (by decide)).1 (by decide),
    (handleRequests_encoding
      { methods := fun n => if n = "m" then some (fun _ => [HStep.setResult (some "1")]) else none,
        timeout := 10 }
      [{ versionF := "2.0", method := "m", id := some "1" }] (fun _ => Race.finished)
      (by decide)).2.1
      { versionF := "2.0", id := some "1", result := some "1", error := none } (by decide),
    by
      have h := (handleRequests_encoding
        { methods := fun n => if n = "m" then some (fun _ => [HStep.setResult (some "1")]) else none,
          timeout := 10 }
        [{ versionF := "2.0", method := "m", id := some "1" },
         { versionF := "2.0", method := "m", id := some "2" }] (fun _ => Race.finished)
        (by decide)).2.2 (by decide)
      rw [h]
      rfl⟩

/-- Claim C8 (confirmed): any input that successfully decodes to an empty
array of requests makes Handle return an InvalidRequest error (code -32600,
data "no methods specified"); the error return means no output is produced,
so nothing is written to the sink. -/
theorem handle_empty_batch (m : Manager) (dSingle : String → Except String Request)
    (dArr : String → Except String (List Request)) (input : String) (sched : Nat → Race)
    (h : parseMethodRequest dSingle dArr input = .ok []) :
    m.Handle dSingle dArr input sched =
      .error (newError errCodeInvalidRequest (EData.str "no methods specified")) ∧
      ∀ out : Output, m.Handle dSingle dArr input sched ≠ .ok out := by
  have h1 : m.Handle dSingle dArr input sched =
      .error (newError errCodeInvalidRequest (EData.str "no methods specified")) := by
    simp [Manager.Handle, h, handleRequests]
  exact ⟨h1, fun out hout => by rw [h1] at hout; cases hout⟩

/-- Witness for C8 at a concrete input: the literal "[]" with an array
decoder succeeding with zero elements. -/
theorem handle_empty_batch_witness :
    Manager.Handle { methods := fun _ => none, timeout := 10 }
        (fun _ => Except.error "unused") (fun _ => Except.ok []) "[]"
        (fun _ => Race.finished) =
      .error (newError errCodeInvalidRequest (EData.str "no methods specified")) :=
  (handle_empty_batch { methods := fun _ => none, timeout := 10 }
    (fun _ => Except.error "unused") (fun _ => Except.ok []) "[]"
    (fun _ => Race.finished) (by rfl)).1

/-- Claim C9 (confirmed): the builder's Add aborts fatally exactly when the
name is the empty string or the handler is absent; a valid registration
stores the handler under that name (leaving other names untouched), and a
later valid registration for the same name overwrites the earlier one. -/
theorem managerBuilder_add_spec (mb : ManagerBuilder) (name : String) (h : Option Method) :
    ((∃ msg, mb.Add name h = .error msg) ↔ name = "" ∨ h = none) ∧
      (∀ b', mb.Add name h = .ok b' →
        b'.methods name = h ∧ ∀ n, n ≠ name → b'.methods n = mb.methods n) ∧
      (∀ b' b'' h2, mb.Add name h = .ok b' → b'.Add name h2 = .ok b'' →
        b''.methods name = h2) := by
  refine ⟨?_, ?_, ?_⟩
  · constructor
    · rintro ⟨msg, hmsg⟩
      by_contra hno
      push_neg at hno
      have hc : ¬(name = "" ∨ h.isNone = true) := by
        rintro (h1 | h1)
        · exact hno.1 h1
        · exact hno.2 (Option.isNone_iff_eq_none.mp h1)
      unfold ManagerBuilder.Add at hmsg
      rw [if_neg hc] at hmsg
      cases hmsg
    · intro hor
      have hc : name = "" ∨ h.isNone = true := by
        rcases hor with h1 | h1
        · exact Or.inl h1
        · exact Or.inr (by simp [h1])
      refine ⟨"jsonrpc: method name and function should not be empty", ?_⟩
      unfold ManagerBuilder.Add
      rw [if_pos hc]
  · intro b' hb
    unfold ManagerBuilder.Add at hb
    split at hb
    · cases hb
    · cases hb
      exact ⟨by simp, fun n hn => by simp [hn]⟩
  · intro b' b'' h2 hb hb2
    unfold ManagerBuilder.Add at hb
    split at hb
    · cases hb
    · cases hb
      unfold ManagerBuilder.Add at hb2
      split at hb2
      · cases hb2
      · cases hb2
        simp

/-- Witness for C9 at concrete inputs: an empty-name registration aborts,
and two successive registrations of "add" leave the second handler in the
map. -/
theorem managerBuilder_add_spec_witness :
    (∃ msg,
        NewManagerBuilder.Add "" (some fun _ => [HStep.setResult (some "1")]) =
          .error msg) ∧
      ∃ b' b'',
        NewManagerBuilder.Add "add" (some fun _ => [HStep.setResult (some "1")]) = .ok b' ∧
          b'.Add "add" (some fun _ => [HStep.setResult (some "2")]) = .ok b'' ∧
            b''.methods "add" = some fun _ => [HStep.setResult (some "2")] :=
  ⟨(managerBuilder_add_spec NewManagerBuilder ""
      (some fun _ => [HStep.setResult (some "1")])).1.mpr (Or.inl rfl),
    ⟨_, _, rfl, rfl,
      (managerBuilder_add_spec NewManagerBuilder "add"
        (some fun _ => [HStep.setResult (some "1")])).2.2 _ _
        (some fun _ => [HStep.setResult (some "2")]) rfl rfl⟩⟩

/-- Claim C10 (confirmed): ParseParams returns an InvalidParams error (code
-32602) exactly when the target is nil, the request carries no params, or
decoding the params into the target fails; otherwise it returns no error
and the target holds the decoded values. The embedding is a pure function
of the request, which the source never writes to. -/
theorem parseParams_spec {α : Type} (r : Request) (unmarshal : String → Except String α)
    (v : Option α) :
    ((r.ParseParams unmarshal v).1.isSome = true ↔
      v = none ∨ r.params = none ∨ ∃ p e, r.params = some p ∧ unmarshal p = .error e) ∧
      (∀ e, (r.ParseParams unmarshal v).1 = some e → e.code = errCodeInvalidParams) ∧
      (∀ p a, v.isSome = true → r.params = some p → unmarshal p = .ok a →
        r.ParseParams unmarshal v = (none, some a)) := by
  refine ⟨?_, ?_, ?_⟩
  · rcases v with _ | a0
    · simp [Request.ParseParams]
    · rcases hp : r.params with _ | p
      · simp [Request.ParseParams, hp]
      · rcases hu : unmarshal p with e | a
        · simp [Request.ParseParams, hp, hu]
        · simp [Request.ParseParams, hp, hu]
  · intro e he
    rcases v with _ | a0
    · simp only [Request.ParseParams] at he
      cases he
      rfl
    · rcases hp : r.params with _ | p
      · simp only [Request.ParseParams, hp] at he
        cases he
        rfl
      · rcases hu : unmarshal p with e2 | a
        · simp only [Request.ParseParams, hp, hu] at he
          cases he
          rfl
        · simp only [Request.ParseParams, hp, hu] at he
          simp at he
  · intro p a hv hp hu
    rcases v with _ | a0
    · cases hv
    · simp [Request.ParseParams, hp, hu]

/-- Witness for C10 at a concrete input: a request with raw params "raw"
decoded by an unmarshaller mapping "raw" to 3 fills the target with 3 and
returns no error. -/
theorem parseParams_spec_witness :
    ({ versionF := "2.0", method := "m", id := none, params := some "raw" } :
        Request).ParseParams
        (fun s => if s = "raw" then Except.ok 3 else Except.error "bad") (some 0) =
      (none, some 3) :=
  (parseParams_spec { versionF := "2.0", method := "m", id := none, params := some "raw" }
    (fun s => if s = "raw" then Except.ok 3 else Except.error "bad") (some 0)).2.2
    "raw" 3 rfl rfl (by rfl)

/-- Claim C4 (counterexample): an input whose first significant character is
the array-open marker but whose literal first character is a space, with
decoders behaving as encoding/json does there (the array decode succeeds;
decoding an array into a single Request fails), is answered with an
InvalidRequest error instead of the successfully decoded batch the claim
requires — the code routes on the literal first character. -/
theorem parseMethodRequest_first_char_not_significant :
    firstSignificantChar " [\x7b\"jsonrpc\":\"2.0\",\"method\":\"a\"\x7d]" = some '[' ∧
      (fun _ => Except.ok [({ versionF := "2.0", method := "a" } : Request)] :
          String → Except String (List Request))
          " [\x7b\"jsonrpc\":\"2.0\",\"method\":\"a\"\x7d]" =
        .ok [{ versionF := "2.0", method := "a" }] ∧
      parseMethodRequest
          (fun _ => .error "json: cannot unmarshal array into Go value of type jrpc2go.Request")
          (fun _ => .ok [{ versionF := "2.0", method := "a" }])
          " [\x7b\"jsonrpc\":\"2.0\",\"method\":\"a\"\x7d]" =
        .error (newError errCodeInvalidRequest
          (EData.str "json: cannot unmarshal array into Go value of type jrpc2go.Request")) :=
  ⟨by decide, rfl, by rfl⟩

/-- Claim C4 (amended): the request decoder peeks (without consuming) the
very first character of the stream — not the first significant one: if it
is the array-open marker the input is decoded as a JSON array of requests,
otherwise the whole input is decoded as a single request and wrapped in a
one-element sequence; an empty stream yields a ParseError (-32700), and a
failed single or batch decode yields an InvalidRequest error (-32600)
carrying the underlying decode error as diagnostic data. -/
theorem parseMethodRequest_routing (dSingle : String → Except String Request)
    (dArr : String → Except String (List Request)) (input : String) :
    (input = "" →
      parseMethodRequest dSingle dArr input =
        .error (newError errCodeParseError (EData.str "fail to read the request text: EOF"))) ∧
      (∀ c cs, input.data = c :: cs → c ≠ '[' →
        ((∀ e, dSingle input = .error e →
            parseMethodRequest dSingle dArr input =
              .error (newError errCodeInvalidRequest (EData.str e))) ∧
          ∀ req, dSingle input = .ok req →
            parseMethodRequest dSingle dArr input = .ok [req])) ∧
      (∀ cs, input.data = '[' :: cs →
        ((∀ e, dArr input = .error e →
            parseMethodRequest dSingle dArr input =
              .error (newError errCodeInvalidRequest (EData.str e))) ∧
          ∀ rs, dArr input = .ok rs → parseMethodRequest dSingle dArr input = .ok rs)) := by
  refine ⟨fun h0 => ?_, fun c cs hdata hc => ⟨fun e he => ?_, fun req hr => ?_⟩,
    fun cs hdata => ⟨fun e he => ?_, fun rs hr => ?_⟩⟩
  · subst h0
    rfl
  · simp [parseMethodRequest, hdata, hc, he]
  · simp [parseMethodRequest, hdata, hc, hr]
  · simp [parseMethodRequest, hdata, he]
  · simp [parseMethodRequest, hdata, hr]

/-- Witness for the amended C4 at concrete inputs: the empty stream is a
ParseError, and an object-open first character routes to the single
decoder. -/
theorem parseMethodRequest_routing_witness :
    parseMethodRequest (fun _ => Except.error "unexpected EOF")
        (fun _ => Except.error "unexpected EOF") "" =
      .error (newError errCodeParseError (EData.str "fail to read the request text: EOF")) ∧
      parseMethodRequest (fun _ => Except.ok ({ versionF := "2.0", method := "a" } : Request))
          (fun _ => Except.error "x") "\x7b\x7d" =
        .ok [{ versionF := "2.0", method := "a" }] :=
  ⟨(parseMethodRequest_routing (fun _ => Except.error "unexpected EOF")
      (fun _ => Except.error "unexpected EOF") "").1 rfl,
    ((parseMethodRequest_routing (fun _ => Except.ok ({ versionF := "2.0", method := "a" } : Request))
      (fun _ => Except.error "x") "\x7b\x7d").2.1 '\x7b' ['\x7d'] (by rfl) (by decide)).2
      { versionF := "2.0", method := "a" } rfl⟩

end Jrpc2go
